import Mathlib

/-!
Shallow embedding of the persistent cell-state subsystem of the
location-grid merging game (source: `src/main.ts`).

Modelling conventions:
* JavaScript numbers that hold grid indices and token values are modelled
  as `Int`; geographic coordinates and probabilities as `ℚ`.
* The deterministic RNG `luck` (starter file `_luck.ts`, not part of the
  repository sources) is an abstract parameter.  The source draws
  `luck(cellKey(c))` for token presence and `luck(cellKey(c) + "-val")`
  for the token value; since `cellKey` is injective (it prints the two
  integers separated by a comma) the two salted draws are modelled as two
  independent functions `luck, luckVal : CellID → ℚ` with range `[0,1)`.
* A JavaScript `Set<string>` keyed by `cellKey` is modelled as an
  insertion-ordered `List CellID`; a `Map<string, number>` as an
  insertion-ordered association list `List (CellID × Int)`.
* DOM, Leaflet layers and status-panel strings carry no game state; the
  outcome of a click is captured by the `ClickResult` tag that mirrors
  which `updateStatusPanel` message the source emits.
-/

namespace D3

/-- Grid origin: Null Island `(0, 0)` (source constant `NULL_ISLAND`). -/
def NULL_ISLAND : ℚ × ℚ := (0, 0)

/-- Cell size in degrees, `1e-4` (source constant `TILE_DEGREES`). -/
def TILE_DEGREES : ℚ := 1 / 10000

/-- Source constant `INTERACTION_RADIUS_CELLS = 3`. -/
def INTERACTION_RADIUS_CELLS : Int := 3

/-- Source constant `CACHE_SPAWN_PROBABILITY = 0.1`. -/
def CACHE_SPAWN_PROBABILITY : ℚ := 1 / 10

/-- Source constant `VICTORY_THRESHOLD = 48`. -/
def VICTORY_THRESHOLD : Int := 48

/-- Source constant `TOKEN_POWERS = [1, 2, 4, 8, 16]`. -/
def TOKEN_POWERS : List Int := [1, 2, 4, 8, 16]

/-- Source: `TOKEN_WEIGHTS = TOKEN_POWERS.map((p) => 1 / p)`. -/
def TOKEN_WEIGHTS : List ℚ := TOKEN_POWERS.map (fun p => 1 / (p : ℚ))

/-- Source: `TOKEN_WEIGHT_TOTAL = TOKEN_WEIGHTS.reduce((a, b) => a + b, 0)`. -/
def TOKEN_WEIGHT_TOTAL : ℚ := TOKEN_WEIGHTS.foldl (fun a b => a + b) 0

/-- Player start position (source constant `CLASSROOM_LATLNG`). -/
def CLASSROOM_LATLNG : ℚ × ℚ :=
  (36997936938057016 / 10 ^ 15, -12205703507501151 / 10 ^ 14)

/-- Integer grid-cell identifier (source interface `CellID`). -/
structure CellID where
  iLat : Int
  iLng : Int
deriving DecidableEq, Repr

/-- Source `latLngToCellID`: floor of the offset from the origin divided by
the cell size, independently per axis. -/
def latLngToCellID (pos : ℚ × ℚ) : CellID :=
  ⟨⌊(pos.1 - NULL_ISLAND.1) / TILE_DEGREES⌋,
   ⌊(pos.2 - NULL_ISLAND.2) / TILE_DEGREES⌋⟩

/-- Lookup in an association list, modelling `Map.get` on keys produced by
`cellKey` (first matching key wins; keys are kept unique by the update
operations). -/
def mapGet (m : List (CellID × Int)) (k : CellID) : Option Int :=
  (m.find? (fun kv => kv.1 = k)).map (fun kv => kv.2)

/-- JavaScript `Map.set`: replace the value at the key in place if present,
otherwise append the new binding. -/
def mapSet (m : List (CellID × Int)) (k : CellID) (v : Int) : List (CellID × Int) :=
  match m with
  | [] => [(k, v)]
  | kv :: rest => if kv.1 = k then (k, v) :: rest else kv :: mapSet rest k v

/-- JavaScript `Map.delete`. -/
def mapDelete (m : List (CellID × Int)) (k : CellID) : List (CellID × Int) :=
  m.filter (fun kv => kv.1 ≠ k)

/-- JavaScript `Set.add`: append if absent. -/
def setAdd (l : List CellID) (c : CellID) : List CellID :=
  if c ∈ l then l else l ++ [c]

/-- JavaScript `Set.delete`. -/
def setDelete (l : List CellID) (c : CellID) : List CellID :=
  l.filter (fun x => x ≠ c)

/-- The mutable game state of `main.ts`: the module-level variables
`pickedUpCells`, `placedTokens`, `playerHeldToken` and `playerLatLng`. -/
structure GameState where
  pickedUpCells : List CellID
  placedTokens : List (CellID × Int)
  playerHeldToken : Option Int
  playerLatLng : ℚ × ℚ
deriving DecidableEq, Repr

/-- The initial module-level state of `main.ts`. -/
def startState : GameState :=
  { pickedUpCells := []
    placedTokens := []
    playerHeldToken := none
    playerLatLng := CLASSROOM_LATLNG }

/-- Source `deterministicCellHasToken`: `luck(cellKey(c)) < CACHE_SPAWN_PROBABILITY`. -/
def deterministicCellHasToken (luck : CellID → ℚ) (c : CellID) : Bool :=
  decide (luck c < CACHE_SPAWN_PROBABILITY)

/-- The cumulative-weight loop body of `deterministicCellTokenValue`: walk
the `(power, weight)` pairs accumulating `cum += weight / TOKEN_WEIGHT_TOTAL`
and return the first power with `r ≤ cum`; if the list is exhausted return
the last configured power (the source's floating-point fallback). -/
def tokenValueGo (r : ℚ) : List (Int × ℚ) → ℚ → Int
  | [], _ => TOKEN_POWERS.getLast (by decide)
  | (p, w) :: rest, cum =>
    let cum2 := cum + w / TOKEN_WEIGHT_TOTAL
    if r ≤ cum2 then p else tokenValueGo r rest cum2

/-- Source `deterministicCellTokenValue`: weighted cumulative draw over
`TOKEN_POWERS` with weights `TOKEN_WEIGHTS`, seeded by the `"-val"`-salted
luck draw. -/
def deterministicCellTokenValue (luckVal : CellID → ℚ) (c : CellID) : Int :=
  tokenValueGo (luckVal c) (TOKEN_POWERS.zip TOKEN_WEIGHTS) 0

/-- Source `tokenForCell`: `pickedUpCells` forces `null`, then a placed
token wins, then the deterministic generator decides. -/
def tokenForCell (luck luckVal : CellID → ℚ) (s : GameState) (c : CellID) : Option Int :=
  if c ∈ s.pickedUpCells then none
  else
    match mapGet s.placedTokens c with
    | some v => some v
    | none =>
      if deterministicCellHasToken luck c then
        some (deterministicCellTokenValue luckVal c)
      else none

/-- Source `playerCell`. -/
def playerCell (s : GameState) : CellID :=
  latLngToCellID s.playerLatLng

/-- Source `cellWithinInteraction`: Chebyshev cell-distance from the
player's cell is at most `INTERACTION_RADIUS_CELLS`. -/
def cellWithinInteraction (s : GameState) (c : CellID) : Bool :=
  decide (max |c.iLat - (playerCell s).iLat| |c.iLng - (playerCell s).iLng|
    ≤ INTERACTION_RADIUS_CELLS)

/-- The visible index range computed by `computeVisibleIndexRange`
(both ends inclusive in the render loops). -/
structure VisibleRange where
  iLatStart : Int
  iLatEnd : Int
  iLngStart : Int
  iLngEnd : Int
deriving DecidableEq, Repr

/-- Source `computeVisibleIndexRange`, from the map bounds. -/
def computeVisibleIndexRange (south north west east : ℚ) : VisibleRange :=
  { iLatStart := (latLngToCellID (south, 0)).iLat
    iLatEnd := (latLngToCellID (north, 0)).iLat + 1
    iLngStart := (latLngToCellID (0, west)).iLng
    iLngEnd := (latLngToCellID (0, east)).iLng + 1 }

/-- Membership in the `visibleKeys` set built by `renderVisibleCells`. -/
def visibleKeys (w : VisibleRange) (c : CellID) : Bool :=
  decide (w.iLatStart ≤ c.iLat ∧ c.iLat ≤ w.iLatEnd ∧
    w.iLngStart ≤ c.iLng ∧ c.iLng ≤ w.iLngEnd)

/-- The state effect of source `renderVisibleCells` (the "D3.b MEMORYLESS
FIX"): delete every picked/placed entry whose key is not in `visibleKeys`;
drawing and the status panel carry no game state. -/
def renderVisibleCells (w : VisibleRange) (s : GameState) : GameState :=
  { s with
    pickedUpCells := s.pickedUpCells.filter (fun k => visibleKeys w k)
    placedTokens := s.placedTokens.filter (fun kv => visibleKeys w kv.1) }

/-- Which `updateStatusPanel` message a click produces, one tag per branch
of source `onCellClicked`. -/
inductive ClickResult where
  | tooFar : ClickResult
  | picked : Int → ClickResult
  | merged : Int → ClickResult
  | placed : ClickResult
  | empty : ClickResult
  | mismatch : Int → Int → ClickResult
deriving DecidableEq, Repr

/-- Source `onCellClicked`.  The range check rejects far cells; otherwise
the five disjoint branches of the source cascade (pickup, merge, place,
nothing, mismatch) fire on `(playerHeldToken, tokenForCell)`.  The
mutating branches end by calling `renderVisibleCells`, which is passed the
current visible range `w`. -/
def onCellClicked (luck luckVal : CellID → ℚ) (w : VisibleRange) (s : GameState)
    (c : CellID) : GameState × ClickResult :=
  if cellWithinInteraction s c then
    match s.playerHeldToken, tokenForCell luck luckVal s c with
    | none, some v =>
      (renderVisibleCells w
        { s with
          playerHeldToken := some v
          pickedUpCells := setAdd s.pickedUpCells c
          placedTokens := mapDelete s.placedTokens c },
       ClickResult.picked v)
    | some h, some v =>
      if h = v then
        (renderVisibleCells w
          { s with
            playerHeldToken := some (h * 2)
            pickedUpCells := setAdd s.pickedUpCells c
            placedTokens := mapDelete s.placedTokens c },
         ClickResult.merged (h * 2))
      else (s, ClickResult.mismatch h v)
    | some h, none =>
      (renderVisibleCells w
        { s with
          placedTokens := mapSet s.placedTokens c h
          pickedUpCells := setDelete s.pickedUpCells c
          playerHeldToken := none },
       ClickResult.placed)
    | none, none => (s, ClickResult.empty)
  else (s, ClickResult.tooFar)

/-- Source `movePlayer`: shift the player by whole cells and re-render. -/
def movePlayer (w : VisibleRange) (dLatCells dLngCells : Int) (s : GameState) : GameState :=
  renderVisibleCells w
    { s with
      playerLatLng := (s.playerLatLng.1 + dLatCells * TILE_DEGREES,
        s.playerLatLng.2 + dLngCells * TILE_DEGREES) }

/-- A cell carries a player-caused modification in state `s`: either it is
recorded as picked up (Emptied) or it has a placed token. -/
def ModifiedIn (s : GameState) (c : CellID) : Prop :=
  c ∈ s.pickedUpCells ∨ (mapGet s.placedTokens c).isSome = true

/-- The two override stores never both hold the same cell key. -/
def DisjointStores (s : GameState) : Prop :=
  ∀ c : CellID, c ∈ s.pickedUpCells → mapGet s.placedTokens c = none

/-- Cumulative normalized weight of the first `i + 1` buckets of the
token-value distribution (the value of `cum` after iteration `i` of the
source loop). -/
def normCumWeight (i : Nat) : ℚ :=
  (TOKEN_WEIGHTS.take (i + 1)).foldl (fun a w => a + w / TOKEN_WEIGHT_TOTAL) 0

/-- Modelled from the spec: `CellModification` (section 3) — the ground
truth override for one cell, `Emptied` or `Placed(value)`.  The repository
realizes it implicitly through membership in `pickedUpCells` and
`placedTokens`. -/
inductive CellModification where
  | emptied : CellModification
  | placed : Int → CellModification
deriving DecidableEq, Repr

/-- Modelled from the spec: the snapshot record of `exportSnapshot`
(section 6): player position, inventory, and the list of all cell
modifications.  No persistence code exists in the repository sources. -/
structure Snapshot where
  playerPosition : ℚ × ℚ
  inventory : Option Int
  allModifications : List (CellID × CellModification)
deriving DecidableEq, Repr

/-- Modelled from the spec: `exportSnapshot` (section 6) serializes the
entire logical state — both stores combined into one modification list,
plus inventory and player position. -/
def exportSnapshot (s : GameState) : Snapshot :=
  { playerPosition := s.playerLatLng
    inventory := s.playerHeldToken
    allModifications :=
      s.pickedUpCells.map (fun c => (c, CellModification.emptied)) ++
        s.placedTokens.map (fun kv => (kv.1, CellModification.placed kv.2)) }

/-- Modelled from the spec: `importSnapshot` (section 6) reconstructs the
logical state from a snapshot: Emptied entries repopulate the picked-up
store, Placed entries the placed-token store. -/
def importSnapshot (snap : Snapshot) : GameState :=
  { pickedUpCells := snap.allModifications.filterMap
      (fun cm =>
        match cm.2 with
        | CellModification.emptied => some cm.1
        | CellModification.placed _ => none)
    placedTokens := snap.allModifications.filterMap
      (fun cm =>
        match cm.2 with
        | CellModification.placed v => some (cm.1, v)
        | CellModification.emptied => none)
    playerHeldToken := snap.inventory
    playerLatLng := snap.playerPosition }

/-- A luck draw that always returns `1/2` (no base token, since
`1/2 ≥ CACHE_SPAWN_PROBABILITY`). -/
def luckHalf : CellID → ℚ := fun _ => 1 / 2

/-- A luck draw that always returns `0` (every cell has a base token of
value `1`). -/
def luckZero : CellID → ℚ := fun _ => 0

/-- The cell at the grid origin. -/
def c00 : CellID := ⟨0, 0⟩

/-- A cell four cells north of the origin (outside interaction range of a
player standing at the origin). -/
def c40 : CellID := ⟨4, 0⟩

/-- A state with the player at the origin holding a token of value 4. -/
def holding4 : GameState :=
  { pickedUpCells := []
    placedTokens := []
    playerHeldToken := some 4
    playerLatLng := (0, 0) }

/-- A state with the player at the origin holding a token of value 1. -/
def holding1 : GameState :=
  { pickedUpCells := []
    placedTokens := []
    playerHeldToken := some 1
    playerLatLng := (0, 0) }

/-- A visible range containing the origin cell. -/
def wNear : VisibleRange := ⟨-5, 5, -5, 5⟩

/-- A visible range far from the origin cell (the origin has scrolled
off-screen). -/
def wFar : VisibleRange := ⟨10, 20, 10, 20⟩

/-! ### Association-list and set helper lemmas -/

theorem mapGet_nil (k : CellID) : mapGet [] k = none := rfl

theorem mapGet_cons (kv : CellID × Int) (m : List (CellID × Int)) (k : CellID) :
    mapGet (kv :: m) k = if kv.1 = k then some kv.2 else mapGet m k := by
  by_cases h : kv.1 = k <;> simp [mapGet, List.find?_cons, h]

theorem mapGet_set_self (m : List (CellID × Int)) (k : CellID) (v : Int) :
    mapGet (mapSet m k v) k = some v := by
  induction m with
  | nil => simp [mapSet, mapGet_cons]
  | cons kv rest ih =>
    by_cases h : kv.1 = k
    · simp [mapSet, h, mapGet_cons]
    · simp [mapSet, h, mapGet_cons, ih]

theorem mapGet_set_ne (m : List (CellID × Int)) (k k2 : CellID) (v : Int)
    (h : k2 ≠ k) : mapGet (mapSet m k v) k2 = mapGet m k2 := by
  have hne : ¬k = k2 := fun hh => h hh.symm
  induction m with
  | nil => simp [mapSet, mapGet_cons, mapGet_nil, hne]
  | cons kv rest ih =>
    by_cases hk : kv.1 = k
    · simp [mapSet, hk, mapGet_cons, hne]
    · simp [mapSet, hk, mapGet_cons, ih]

theorem mapGet_filter (p : CellID → Bool) (m : List (CellID × Int)) (k : CellID) :
    mapGet (m.filter (fun kv => p kv.1)) k =
      if p k then mapGet m k else none := by
  induction m with
  | nil => simp [mapGet_nil]
  | cons kv rest ih =>
    by_cases hk : kv.1 = k
    · subst hk
      by_cases hp : p kv.1 <;> simp [List.filter_cons, hp, mapGet_cons, ih]
    · by_cases hp : p kv.1 <;> simp [List.filter_cons, hp, mapGet_cons, hk, ih]

theorem mapGet_delete_self (m : List (CellID × Int)) (k : CellID) :
    mapGet (mapDelete m k) k = none := by
  have h := mapGet_filter (fun x => x ≠ k) m k
  simpa [mapDelete] using h

theorem mapGet_delete_ne (m : List (CellID × Int)) (k k2 : CellID) (h : k2 ≠ k) :
    mapGet (mapDelete m k) k2 = mapGet m k2 := by
  have hf := mapGet_filter (fun x => x ≠ k) m k2
  simpa [mapDelete, h] using hf

theorem mem_setAdd (l : List CellID) (c x : CellID) :
    x ∈ setAdd l c ↔ x ∈ l ∨ x = c := by
  by_cases h : c ∈ l
  · simp only [setAdd, if_pos h]
    constructor
    · exact fun hx => Or.inl hx
    · rintro (hx | rfl)
      · exact hx
      · exact h
  · simp [setAdd, if_neg h]

theorem mem_setDelete (l : List CellID) (c x : CellID) :
    x ∈ setDelete l c ↔ x ∈ l ∧ x ≠ c := by
  simp [setDelete, List.mem_filter]

/-! ### Render-pass helper lemmas -/

theorem render_mem_pickedUp (w : VisibleRange) (s : GameState) (c : CellID) :
    c ∈ (renderVisibleCells w s).pickedUpCells ↔
      c ∈ s.pickedUpCells ∧ visibleKeys w c = true := by
  simp [renderVisibleCells, List.mem_filter]

theorem render_mapGet (w : VisibleRange) (s : GameState) (c : CellID) :
    mapGet (renderVisibleCells w s).placedTokens c =
      if visibleKeys w c then mapGet s.placedTokens c else none := by
  simpa [renderVisibleCells] using mapGet_filter (fun x => visibleKeys w x) s.placedTokens c

theorem render_heldToken (w : VisibleRange) (s : GameState) :
    (renderVisibleCells w s).playerHeldToken = s.playerHeldToken := rfl

theorem render_latLng (w : VisibleRange) (s : GameState) :
    (renderVisibleCells w s).playerLatLng = s.playerLatLng := rfl

/-! ### tokenForCell helper lemmas -/

theorem tokenForCell_of_pickedUp (luck luckVal : CellID → ℚ) (s : GameState)
    (c : CellID) (h : c ∈ s.pickedUpCells) :
    tokenForCell luck luckVal s c = none := by
  simp [tokenForCell, h]

theorem tokenForCell_of_placed (luck luckVal : CellID → ℚ) (s : GameState)
    (c : CellID) (v : Int) (hp : c ∉ s.pickedUpCells)
    (hm : mapGet s.placedTokens c = some v) :
    tokenForCell luck luckVal s c = some v := by
  simp [tokenForCell, hp, hm]

theorem tokenForCell_of_unmodified (luck luckVal : CellID → ℚ) (s : GameState)
    (c : CellID) (hp : c ∉ s.pickedUpCells)
    (hm : mapGet s.placedTokens c = none) :
    tokenForCell luck luckVal s c =
      if deterministicCellHasToken luck c then
        some (deterministicCellTokenValue luckVal c)
      else none := by
  simp [tokenForCell, hp, hm]

/-! ### onCellClicked branch lemmas -/

theorem click_tooFar (luck luckVal : CellID → ℚ) (w : VisibleRange)
    (s : GameState) (c : CellID) (h : cellWithinInteraction s c = false) :
    onCellClicked luck luckVal w s c = (s, ClickResult.tooFar) := by
  simp [onCellClicked, h]

theorem click_pickup (luck luckVal : CellID → ℚ) (w : VisibleRange)
    (s : GameState) (c : CellID) (v : Int)
    (hin : cellWithinInteraction s c = true)
    (hheld : s.playerHeldToken = none)
    (htok : tokenForCell luck luckVal s c = some v) :
    onCellClicked luck luckVal w s c =
      (renderVisibleCells w
        { s with
          playerHeldToken := some v
          pickedUpCells := setAdd s.pickedUpCells c
          placedTokens := mapDelete s.placedTokens c },
       ClickResult.picked v) := by
  simp [onCellClicked, hin, hheld, htok]

theorem click_merge (luck luckVal : CellID → ℚ) (w : VisibleRange)
    (s : GameState) (c : CellID) (v : Int)
    (hin : cellWithinInteraction s c = true)
    (hheld : s.playerHeldToken = some v)
    (htok : tokenForCell luck luckVal s c = some v) :
    onCellClicked luck luckVal w s c =
      (renderVisibleCells w
        { s with
          playerHeldToken := some (v * 2)
          pickedUpCells := setAdd s.pickedUpCells c
          placedTokens := mapDelete s.placedTokens c },
       ClickResult.merged (v * 2)) := by
  simp [onCellClicked, hin, hheld, htok]

theorem click_mismatch (luck luckVal : CellID → ℚ) (w : VisibleRange)
    (s : GameState) (c : CellID) (hv cv : Int)
    (hin : cellWithinInteraction s c = true)
    (hheld : s.playerHeldToken = some hv)
    (htok : tokenForCell luck luckVal s c = some cv)
    (hne : hv ≠ cv) :
    onCellClicked luck luckVal w s c = (s, ClickResult.mismatch hv cv) := by
  simp [onCellClicked, hin, hheld, htok, hne]

theorem click_place (luck luckVal : CellID → ℚ) (w : VisibleRange)
    (s : GameState) (c : CellID) (hv : Int)
    (hin : cellWithinInteraction s c = true)
    (hheld : s.playerHeldToken = some hv)
    (htok : tokenForCell luck luckVal s c = none) :
    onCellClicked luck luckVal w s c =
      (renderVisibleCells w
        { s with
          placedTokens := mapSet s.placedTokens c hv
          pickedUpCells := setDelete s.pickedUpCells c
          playerHeldToken := none },
       ClickResult.placed) := by
  simp [onCellClicked, hin, hheld, htok]

theorem click_empty (luck luckVal : CellID → ℚ) (w : VisibleRange)
    (s : GameState) (c : CellID)
    (hin : cellWithinInteraction s c = true)
    (hheld : s.playerHeldToken = none)
    (htok : tokenForCell luck luckVal s c = none) :
    onCellClicked luck luckVal w s c = (s, ClickResult.empty) := by
  simp [onCellClicked, hin, hheld, htok]

/-! ### Concrete evaluation lemmas -/

theorem hasToken_luckHalf (c : CellID) :
    deterministicCellHasToken luckHalf c = false := by
  simp only [deterministicCellHasToken, luckHalf, CACHE_SPAWN_PROBABILITY,
    decide_eq_false_iff_not, not_lt]
  norm_num

theorem hasToken_luckZero (c : CellID) :
    deterministicCellHasToken luckZero c = true := by
  simp only [deterministicCellHasToken, luckZero, CACHE_SPAWN_PROBABILITY,
    decide_eq_true_eq]
  norm_num

theorem weight_total_eq : TOKEN_WEIGHT_TOTAL = 31 / 16 := by
  norm_num [TOKEN_WEIGHT_TOTAL, TOKEN_WEIGHTS, TOKEN_POWERS]

theorem zip_powers_weights :
    TOKEN_POWERS.zip TOKEN_WEIGHTS =
      [(1, 1), (2, 1 / 2), (4, 1 / 4), (8, 1 / 8), (16, 1 / 16)] := by
  norm_num [TOKEN_POWERS, TOKEN_WEIGHTS, List.zip]

/-- Closed form of the weighted cumulative draw: the normalized cumulative
weights are `16/31, 24/31, 28/31, 30/31, 1`, and the loop returns the
first bucket whose cumulative weight reaches the draw, defaulting to 16. -/
theorem deterministicCellTokenValue_eq (luckVal : CellID → ℚ) (c : CellID) :
    deterministicCellTokenValue luckVal c =
      if luckVal c ≤ 16 / 31 then 1
      else if luckVal c ≤ 24 / 31 then 2
      else if luckVal c ≤ 28 / 31 then 4
      else if luckVal c ≤ 30 / 31 then 8
      else 16 := by
  rw [deterministicCellTokenValue, zip_powers_weights]
  simp only [tokenValueGo, weight_total_eq, TOKEN_POWERS]
  norm_num

theorem tokenValue_luckZero (c : CellID) :
    deterministicCellTokenValue luckZero c = 1 := by
  rw [deterministicCellTokenValue_eq]
  norm_num [luckZero]

theorem normCumWeight_eval :
    normCumWeight 0 = 16 / 31 ∧ normCumWeight 1 = 24 / 31 ∧
    normCumWeight 2 = 28 / 31 ∧ normCumWeight 3 = 30 / 31 ∧
    normCumWeight 4 = 1 := by
  norm_num [normCumWeight, TOKEN_WEIGHTS, TOKEN_POWERS, weight_total_eq,
    List.take]

theorem playerCell_at_origin (s : GameState) (h : s.playerLatLng = (0, 0)) :
    playerCell s = c00 := by
  simp only [playerCell, h, latLngToCellID, NULL_ISLAND, TILE_DEGREES, c00]
  norm_num

theorem within_origin (s : GameState) (h : s.playerLatLng = (0, 0)) :
    cellWithinInteraction s c00 = true := by
  simp only [cellWithinInteraction, playerCell_at_origin s h]
  decide

theorem vis_wNear_c00 : visibleKeys wNear c00 = true := by decide

theorem vis_wFar_c00 : visibleKeys wFar c00 = false := by decide

theorem tokenForCell_luckHalf_unmodified (s : GameState) (c : CellID)
    (hp : c ∉ s.pickedUpCells) (hm : mapGet s.placedTokens c = none) :
    tokenForCell luckHalf luckHalf s c = none := by
  rw [tokenForCell_of_unmodified luckHalf luckHalf s c hp hm,
    hasToken_luckHalf]
  simp

/-! ### Claim theorems -/

/-- C7: the cell id of a world coordinate is the per-axis floor of the
offset from the fixed origin divided by the cell size; the coordinate at
the anchor maps to cell (0,0), and the coordinate at anchor plus 1.5 cell
sizes along one axis maps to index 1 on that axis. -/
theorem latLngToCellID_floor_and_anchor :
    (∀ pos : ℚ × ℚ, latLngToCellID pos =
      ⟨⌊(pos.1 - NULL_ISLAND.1) / TILE_DEGREES⌋,
       ⌊(pos.2 - NULL_ISLAND.2) / TILE_DEGREES⌋⟩) ∧
    latLngToCellID NULL_ISLAND = ⟨0, 0⟩ ∧
    latLngToCellID (NULL_ISLAND.1 + (3 / 2) * TILE_DEGREES, NULL_ISLAND.2) =
      ⟨1, 0⟩ ∧
    latLngToCellID (NULL_ISLAND.1, NULL_ISLAND.2 + (3 / 2) * TILE_DEGREES) =
      ⟨0, 1⟩ := by
  refine ⟨fun pos => rfl, ?_, ?_, ?_⟩ <;>
    simp only [latLngToCellID, NULL_ISLAND, TILE_DEGREES, CellID.mk.injEq] <;>
    norm_num

/-- C9: for a cell with no modification recorded, the query is a pure
function of the cell id and the seeded luck draws — the same in any two
states (within a session or across sessions with the same seed), and equal
to the deterministic generator's answer. -/
theorem unmodified_query_deterministic (luck luckVal : CellID → ℚ)
    (s1 s2 : GameState) (c : CellID)
    (h1p : c ∉ s1.pickedUpCells) (h1m : mapGet s1.placedTokens c = none)
    (h2p : c ∉ s2.pickedUpCells) (h2m : mapGet s2.placedTokens c = none) :
    tokenForCell luck luckVal s1 c = tokenForCell luck luckVal s2 c ∧
    tokenForCell luck luckVal s1 c =
      (if deterministicCellHasToken luck c then
        some (deterministicCellTokenValue luckVal c)
      else none) := by
  rw [tokenForCell_of_unmodified luck luckVal s1 c h1p h1m,
    tokenForCell_of_unmodified luck luckVal s2 c h2p h2m]
  exact ⟨rfl, rfl⟩

/-- Witness for C9 at concrete states. -/
theorem unmodified_query_deterministic_witness :
    c00 ∉ startState.pickedUpCells ∧ mapGet startState.placedTokens c00 = none ∧
    c00 ∉ holding4.pickedUpCells ∧ mapGet holding4.placedTokens c00 = none ∧
    tokenForCell luckZero luckZero startState c00 =
      tokenForCell luckZero luckZero holding4 c00 :=
  ⟨by simp [startState], rfl, by simp [holding4], rfl,
    (unmodified_query_deterministic luckZero luckZero startState holding4 c00
      (by simp [startState]) rfl (by simp [holding4]) rfl).1⟩

/-- C4: a click on a cell whose Chebyshev cell-distance from the player's
cell exceeds the interaction radius is rejected with the too-far signal
and the state is exactly unchanged. -/
theorem out_of_range_click_rejected (luck luckVal : CellID → ℚ)
    (w : VisibleRange) (s : GameState) (c : CellID)
    (h : INTERACTION_RADIUS_CELLS <
      max |c.iLat - (playerCell s).iLat| |c.iLng - (playerCell s).iLng|) :
    onCellClicked luck luckVal w s c = (s, ClickResult.tooFar) := by
  apply click_tooFar
  simp only [cellWithinInteraction, decide_eq_false_iff_not, not_le]
  exact h

/-- Witness for C4: a cell four cells away from the origin player. -/
theorem out_of_range_click_rejected_witness :
    INTERACTION_RADIUS_CELLS <
      max |c40.iLat - (playerCell holding4).iLat|
        |c40.iLng - (playerCell holding4).iLng| ∧
    onCellClicked luckZero luckZero wNear holding4 c40 =
      (holding4, ClickResult.tooFar) := by
  have hp : playerCell holding4 = c00 := playerCell_at_origin holding4 rfl
  have h : INTERACTION_RADIUS_CELLS <
      max |c40.iLat - (playerCell holding4).iLat|
        |c40.iLng - (playerCell holding4).iLng| := by
    rw [hp]; decide
  exact ⟨h, out_of_range_click_rejected luckZero luckZero wNear holding4 c40 h⟩

/-- C3: holding V and activating an in-range (hence rendered, i.e.
visible) cell whose token is V doubles the held value and marks the cell
Emptied; holding V and activating a cell whose token is W different from V
changes nothing and only reports a mismatch. -/
theorem merge_and_mismatch_correct (luck luckVal : CellID → ℚ)
    (w : VisibleRange) (s : GameState) (c : CellID) (V W : Int)
    (hin : cellWithinInteraction s c = true)
    (hheld : s.playerHeldToken = some V)
    (htok : tokenForCell luck luckVal s c = some W) :
    (W = V → visibleKeys w c = true →
      (onCellClicked luck luckVal w s c).1.playerHeldToken = some (2 * V) ∧
      c ∈ (onCellClicked luck luckVal w s c).1.pickedUpCells ∧
      tokenForCell luck luckVal (onCellClicked luck luckVal w s c).1 c = none) ∧
    (W ≠ V → onCellClicked luck luckVal w s c = (s, ClickResult.mismatch V W)) := by
  constructor
  · rintro rfl hvis
    rw [click_merge luck luckVal w s c W hin hheld htok]
    have hmem : c ∈ (renderVisibleCells w
        { s with
          playerHeldToken := some (W * 2)
          pickedUpCells := setAdd s.pickedUpCells c
          placedTokens := mapDelete s.placedTokens c }).pickedUpCells := by
      rw [render_mem_pickedUp]
      exact ⟨(mem_setAdd s.pickedUpCells c c).mpr (Or.inr rfl), hvis⟩
    refine ⟨?_, hmem, tokenForCell_of_pickedUp luck luckVal _ c hmem⟩
    rw [render_heldToken]
    rw [mul_comm]
  · intro hne
    exact click_mismatch luck luckVal w s c V W hin hheld htok
      (fun hh => hne hh.symm)

/-- Witness for C3 at a concrete merge of two tokens of value 1. -/
theorem merge_and_mismatch_correct_witness :
    cellWithinInteraction holding1 c00 = true ∧
    holding1.playerHeldToken = some 1 ∧
    tokenForCell luckZero luckZero holding1 c00 = some 1 ∧
    ((onCellClicked luckZero luckZero wNear holding1 c00).1.playerHeldToken =
        some (2 * 1) ∧
      c00 ∈ (onCellClicked luckZero luckZero wNear holding1 c00).1.pickedUpCells ∧
      tokenForCell luckZero luckZero
        (onCellClicked luckZero luckZero wNear holding1 c00).1 c00 = none) := by
  have hin := within_origin holding1 rfl
  have htok : tokenForCell luckZero luckZero holding1 c00 = some 1 := by
    rw [tokenForCell_of_unmodified luckZero luckZero holding1 c00
      (by simp [holding1]) rfl, hasToken_luckZero, tokenValue_luckZero]
    simp
  exact ⟨hin, rfl, htok,
    (merge_and_mismatch_correct luckZero luckZero wNear holding1 c00 1 1 hin
      rfl htok).1 rfl vis_wNear_c00⟩

/-- C8: the token-value generator always returns one of the configured
powers of two; for a draw in `[0,1)` it returns the first power (in
increasing-value order) whose cumulative normalized weight meets or
exceeds the draw; if no cumulative bucket meets the draw it falls back to
the largest configured value, 16. -/
theorem tokenValue_weighted_draw (luckVal : CellID → ℚ) (c : CellID) :
    deterministicCellTokenValue luckVal c ∈ TOKEN_POWERS ∧
    (0 ≤ luckVal c → luckVal c < 1 →
      ∃ i, ∃ hi : i < TOKEN_POWERS.length,
        deterministicCellTokenValue luckVal c = TOKEN_POWERS.get ⟨i, hi⟩ ∧
        luckVal c ≤ normCumWeight i ∧
        ∀ j, j < i → normCumWeight j < luckVal c) ∧
    ((∀ i, i < TOKEN_POWERS.length → normCumWeight i < luckVal c) →
      deterministicCellTokenValue luckVal c = 16) := by
  obtain ⟨e0, e1, e2, e3, e4⟩ := normCumWeight_eval
  have he := deterministicCellTokenValue_eq luckVal c
  refine ⟨?_, ?_, ?_⟩
  · rw [he]
    by_cases h1 : luckVal c ≤ 16 / 31
    · simp [h1, TOKEN_POWERS]
    by_cases h2 : luckVal c ≤ 24 / 31
    · simp [h1, h2, TOKEN_POWERS]
    by_cases h3 : luckVal c ≤ 28 / 31
    · simp [h1, h2, h3, TOKEN_POWERS]
    by_cases h4 : luckVal c ≤ 30 / 31
    · simp [h1, h2, h3, h4, TOKEN_POWERS]
    · simp [h1, h2, h3, h4, TOKEN_POWERS]
  · intro hr0 hr1
    by_cases h1 : luckVal c ≤ 16 / 31
    · refine ⟨0, by decide, ?_, by rw [e0]; exact h1, ?_⟩
      · rw [he]
        simp [h1, TOKEN_POWERS]
      · intro j hj
        exact absurd hj (Nat.not_lt_zero j)
    by_cases h2 : luckVal c ≤ 24 / 31
    · refine ⟨1, by decide, ?_, by rw [e1]; exact h2, ?_⟩
      · rw [he]
        simp [h1, h2, TOKEN_POWERS]
      · intro j hj
        interval_cases j
        rw [e0]
        exact lt_of_not_le h1
    by_cases h3 : luckVal c ≤ 28 / 31
    · refine ⟨2, by decide, ?_, by rw [e2]; exact h3, ?_⟩
      · rw [he]
        simp [h1, h2, h3, TOKEN_POWERS]
      · intro j hj
        interval_cases j
        · rw [e0]; exact lt_of_not_le h1
        · rw [e1]; exact lt_of_not_le h2
    by_cases h4 : luckVal c ≤ 30 / 31
    · refine ⟨3, by decide, ?_, by rw [e3]; exact h4, ?_⟩
      · rw [he]
        simp only [if_neg h1, if_neg h2, if_neg h3, if_pos h4]
        decide
      · intro j hj
        interval_cases j
        · rw [e0]; exact lt_of_not_le h1
        · rw [e1]; exact lt_of_not_le h2
        · rw [e2]; exact lt_of_not_le h3
    · refine ⟨4, by decide, ?_, by rw [e4]; exact le_of_lt hr1, ?_⟩
      · rw [he]
        simp only [if_neg h1, if_neg h2, if_neg h3, if_neg h4]
        decide
      · intro j hj
        interval_cases j
        · rw [e0]; exact lt_of_not_le h1
        · rw [e1]; exact lt_of_not_le h2
        · rw [e2]; exact lt_of_not_le h3
        · rw [e3]; exact lt_of_not_le h4
  · intro hall
    have h4 := hall 4 (by decide)
    rw [e4] at h4
    have n1 : ¬luckVal c ≤ 16 / 31 := by push_neg; linarith
    have n2 : ¬luckVal c ≤ 24 / 31 := by push_neg; linarith
    have n3 : ¬luckVal c ≤ 28 / 31 := by push_neg; linarith
    have n4 : ¬luckVal c ≤ 30 / 31 := by push_neg; linarith
    rw [he]
    simp [n1, n2, n3, n4]

/-- Witness for C8 at the draw 1/2, which selects the first bucket. -/
theorem tokenValue_weighted_draw_witness :
    (0 : ℚ) ≤ luckHalf c00 ∧ luckHalf c00 < 1 ∧
    ∃ i, ∃ hi : i < TOKEN_POWERS.length,
      deterministicCellTokenValue luckHalf c00 = TOKEN_POWERS.get ⟨i, hi⟩ ∧
      luckHalf c00 ≤ normCumWeight i ∧
      ∀ j, j < i → normCumWeight j < luckHalf c00 :=
  ⟨by norm_num [luckHalf], by norm_num [luckHalf],
    (tokenValue_weighted_draw luckHalf c00).2.1 (by norm_num [luckHalf])
      (by norm_num [luckHalf])⟩

/-- Disjointness of the two stores is preserved by the render-pass
eviction. -/
theorem disjoint_render (w : VisibleRange) (s : GameState)
    (h : DisjointStores s) : DisjointStores (renderVisibleCells w s) := by
  intro x hx
  rw [render_mem_pickedUp] at hx
  rw [render_mapGet, h x hx.1]
  simp

/-- Disjointness transfer for the pickup/merge mutation on the raw lists. -/
theorem disjoint_lists_add_delete (l : List CellID) (m : List (CellID × Int))
    (c : CellID) (h : ∀ x ∈ l, mapGet m x = none) :
    ∀ x ∈ setAdd l c, mapGet (mapDelete m c) x = none := by
  intro x hx
  rcases (mem_setAdd l c x).mp hx with hx | rfl
  · by_cases hxc : x = c
    · subst hxc
      exact mapGet_delete_self m x
    · rw [mapGet_delete_ne m c x hxc]
      exact h x hx
  · exact mapGet_delete_self m x

/-- Disjointness transfer for the place mutation on the raw lists. -/
theorem disjoint_lists_delete_set (l : List CellID) (m : List (CellID × Int))
    (c : CellID) (v : Int) (h : ∀ x ∈ l, mapGet m x = none) :
    ∀ x ∈ setDelete l c, mapGet (mapSet m c v) x = none := by
  intro x hx
  rcases (mem_setDelete l c x).mp hx with ⟨hx1, hx2⟩
  rw [mapGet_set_ne m c x v hx2]
  exact h x hx1

/-- C10: no cell key is ever in both `pickedUpCells` and `placedTokens`:
the initial state is disjoint, and every click branch and the render-pass
eviction preserve disjointness. -/
theorem stores_disjoint_preserved (luck luckVal : CellID → ℚ)
    (w : VisibleRange) (s : GameState) (c : CellID) (h : DisjointStores s) :
    DisjointStores (onCellClicked luck luckVal w s c).1 ∧
    DisjointStores (renderVisibleCells w s) ∧
    DisjointStores startState := by
  refine ⟨?_, disjoint_render w s h, fun x hx => by simp [startState] at hx⟩
  by_cases hin : cellWithinInteraction s c = true
  · cases hheld : s.playerHeldToken with
    | none =>
      cases htok : tokenForCell luck luckVal s c with
      | none =>
        rw [click_empty luck luckVal w s c hin hheld htok]
        exact h
      | some v =>
        rw [click_pickup luck luckVal w s c v hin hheld htok]
        exact disjoint_render w _ (disjoint_lists_add_delete _ _ c h)
    | some hv =>
      cases htok : tokenForCell luck luckVal s c with
      | none =>
        rw [click_place luck luckVal w s c hv hin hheld htok]
        exact disjoint_render w _ (disjoint_lists_delete_set _ _ c hv h)
      | some v =>
        by_cases hvv : hv = v
        · subst hvv
          rw [click_merge luck luckVal w s c hv hin hheld htok]
          exact disjoint_render w _ (disjoint_lists_add_delete _ _ c h)
        · rw [click_mismatch luck luckVal w s c hv v hin hheld htok hvv]
          exact h
  · rw [click_tooFar luck luckVal w s c (by simpa using hin)]
    exact h

/-- Witness for C10 starting from the initial state. -/
theorem stores_disjoint_preserved_witness :
    DisjointStores startState ∧
    DisjointStores (onCellClicked luckZero luckZero wNear startState c00).1 := by
  have h0 : DisjointStores startState := fun x hx => by simp [startState] at hx
  exact ⟨h0,
    (stores_disjoint_preserved luckZero luckZero wNear startState c00 h0).1⟩

/-- C1 counterexample: the player places a token of value 4 at the origin
cell (a modification), the cell scrolls off-screen (`wFar` render) and
back (`wNear` render); the query then reports no token — the regenerated
base value — instead of the Placed(4) modification.  The claimed
persistence across viewport changes fails because the render pass deletes
off-window modifications. -/
theorem override_lost_offscreen :
    (onCellClicked luckHalf luckHalf wNear holding4 c00).2 = ClickResult.placed ∧
    tokenForCell luckHalf luckHalf
      (onCellClicked luckHalf luckHalf wNear holding4 c00).1 c00 = some 4 ∧
    tokenForCell luckHalf luckHalf
      (renderVisibleCells wNear (renderVisibleCells wFar
        (onCellClicked luckHalf luckHalf wNear holding4 c00).1)) c00 = none := by
  have hin := within_origin holding4 rfl
  have htok : tokenForCell luckHalf luckHalf holding4 c00 = none :=
    tokenForCell_luckHalf_unmodified holding4 c00 (by simp [holding4]) rfl
  have hclick := click_place luckHalf luckHalf wNear holding4 c00 4 hin rfl htok
  refine ⟨by rw [hclick], ?_, ?_⟩
  · rw [hclick]
    exact tokenForCell_of_placed luckHalf luckHalf _ c00 4 (by decide) (by decide)
  · rw [hclick]
    exact tokenForCell_luckHalf_unmodified _ c00 (by decide) (by decide)

/-- C1 amended: a modification shadows the deterministic generator — the
query on a modified cell is independent of the luck draws — and the
modification and its query result persist across every render whose
visibility window still contains the cell; a render whose window excludes
the cell deletes the modification (see the counterexample). -/
theorem override_persists_while_visible
    (luck1 luckVal1 luck2 luckVal2 : CellID → ℚ) (w : VisibleRange)
    (s : GameState) (c : CellID) (h : ModifiedIn s c) :
    tokenForCell luck1 luckVal1 s c = tokenForCell luck2 luckVal2 s c ∧
    (visibleKeys w c = true →
      ModifiedIn (renderVisibleCells w s) c ∧
      tokenForCell luck1 luckVal1 (renderVisibleCells w s) c =
        tokenForCell luck1 luckVal1 s c) := by
  by_cases hp : c ∈ s.pickedUpCells
  · constructor
    · rw [tokenForCell_of_pickedUp luck1 luckVal1 s c hp,
        tokenForCell_of_pickedUp luck2 luckVal2 s c hp]
    · intro hvis
      have hp2 : c ∈ (renderVisibleCells w s).pickedUpCells :=
        (render_mem_pickedUp w s c).mpr ⟨hp, hvis⟩
      refine ⟨Or.inl hp2, ?_⟩
      rw [tokenForCell_of_pickedUp luck1 luckVal1 _ c hp2,
        tokenForCell_of_pickedUp luck1 luckVal1 s c hp]
  · rcases h with hp2 | hm
    · exact absurd hp2 hp
    · obtain ⟨v, hv⟩ := Option.isSome_iff_exists.mp hm
      constructor
      · rw [tokenForCell_of_placed luck1 luckVal1 s c v hp hv,
          tokenForCell_of_placed luck2 luckVal2 s c v hp hv]
      · intro hvis
        have hp2 : c ∉ (renderVisibleCells w s).pickedUpCells := by
          rw [render_mem_pickedUp]
          exact fun hh => hp hh.1
        have hm2 : mapGet (renderVisibleCells w s).placedTokens c = some v := by
          rw [render_mapGet, if_pos hvis]
          exact hv
        refine ⟨Or.inr (by rw [hm2]; rfl), ?_⟩
        rw [tokenForCell_of_placed luck1 luckVal1 _ c v hp2 hm2,
          tokenForCell_of_placed luck1 luckVal1 s c v hp hv]

/-- Witness for the amended C1 at a concrete modified state. -/
theorem override_persists_while_visible_witness :
    ModifiedIn (onCellClicked luckHalf luckHalf wNear holding4 c00).1 c00 ∧
    ModifiedIn (renderVisibleCells wNear
      (onCellClicked luckHalf luckHalf wNear holding4 c00).1) c00 := by
  have hin := within_origin holding4 rfl
  have htok : tokenForCell luckHalf luckHalf holding4 c00 = none :=
    tokenForCell_luckHalf_unmodified holding4 c00 (by simp [holding4]) rfl
  have hclick := click_place luckHalf luckHalf wNear holding4 c00 4 hin rfl htok
  have hmod : ModifiedIn (onCellClicked luckHalf luckHalf wNear holding4 c00).1 c00 := by
    rw [hclick]
    exact Or.inr (by decide)
  exact ⟨hmod,
    ((override_persists_while_visible luckHalf luckHalf luckHalf luckHalf wNear
      (onCellClicked luckHalf luckHalf wNear holding4 c00).1 c00 hmod).2
        vis_wNear_c00).1⟩

/-- C2 counterexample: after the render pass completes for a viewport that
excludes a modified cell, the modified id is held in neither store — the
code maintains no off-screen archive at all, so the partition claim
("never neither") fails and the modification is lost. -/
theorem modified_cell_lost_by_render :
    ModifiedIn (onCellClicked luckHalf luckHalf wNear holding4 c00).1 c00 ∧
    ¬ModifiedIn (renderVisibleCells wFar
      (onCellClicked luckHalf luckHalf wNear holding4 c00).1) c00 := by
  have hin := within_origin holding4 rfl
  have htok : tokenForCell luckHalf luckHalf holding4 c00 = none :=
    tokenForCell_luckHalf_unmodified holding4 c00 (by simp [holding4]) rfl
  have hclick := click_place luckHalf luckHalf wNear holding4 c00 4 hin rfl htok
  constructor
  · rw [hclick]
    exact Or.inr (by decide)
  · rw [hclick]
    rintro (hmem | hsome)
    · exact absurd hmem (by decide)
    · exact absurd hsome (by decide)

/-- C2 amended: the implementation keeps a single visibility-scoped store
and no archive: after a render pass a cell is recorded as picked up iff it
was and is in the window, a placed token survives iff its cell is in the
window, and a cell is modified after the render iff it is in the window
and was modified before — off-window modifications are deleted, not
archived. -/
theorem single_store_migration (w : VisibleRange) (s : GameState) (c : CellID) :
    (c ∈ (renderVisibleCells w s).pickedUpCells ↔
      c ∈ s.pickedUpCells ∧ visibleKeys w c = true) ∧
    mapGet (renderVisibleCells w s).placedTokens c =
      (if visibleKeys w c then mapGet s.placedTokens c else none) ∧
    (ModifiedIn (renderVisibleCells w s) c ↔
      visibleKeys w c = true ∧ ModifiedIn s c) := by
  refine ⟨render_mem_pickedUp w s c, render_mapGet w s c, ?_⟩
  simp only [ModifiedIn, render_mem_pickedUp, render_mapGet]
  cases hb : visibleKeys w c <;> simp [hb]

/-- The pickup branch from any state: activating a visible in-range cell
holding value V with an empty inventory yields inventory V and an Emptied
cell. -/
theorem pickup_from_state (luck luckVal : CellID → ℚ) (w : VisibleRange)
    (s1 : GameState) (c : CellID) (V : Int)
    (hin1 : cellWithinInteraction s1 c = true)
    (hvis : visibleKeys w c = true)
    (hheld1 : s1.playerHeldToken = none)
    (htok1 : tokenForCell luck luckVal s1 c = some V) :
    (onCellClicked luck luckVal w s1 c).2 = ClickResult.picked V ∧
    (onCellClicked luck luckVal w s1 c).1.playerHeldToken = some V ∧
    c ∈ (onCellClicked luck luckVal w s1 c).1.pickedUpCells ∧
    tokenForCell luck luckVal (onCellClicked luck luckVal w s1 c).1 c = none := by
  rw [click_pickup luck luckVal w s1 c V hin1 hheld1 htok1]
  have hmem : c ∈ (renderVisibleCells w
      { s1 with
        playerHeldToken := some V
        pickedUpCells := setAdd s1.pickedUpCells c
        placedTokens := mapDelete s1.placedTokens c }).pickedUpCells := by
    rw [render_mem_pickedUp]
    exact ⟨(mem_setAdd s1.pickedUpCells c c).mpr (Or.inr rfl), hvis⟩
  exact ⟨rfl, rfl, hmem, tokenForCell_of_pickedUp luck luckVal _ c hmem⟩

/-- C6: holding V at an in-range, visible cell with no token, placing and
then immediately activating the same cell again restores inventory V and
leaves the cell in the Emptied modified state (queries return no token via
the override, not via the generator). -/
theorem place_then_pickup_inverse (luck luckVal : CellID → ℚ)
    (w : VisibleRange) (s : GameState) (c : CellID) (V : Int)
    (hin : cellWithinInteraction s c = true)
    (hvis : visibleKeys w c = true)
    (hheld : s.playerHeldToken = some V)
    (htok : tokenForCell luck luckVal s c = none) :
    (onCellClicked luck luckVal w s c).2 = ClickResult.placed ∧
    (onCellClicked luck luckVal w
      (onCellClicked luck luckVal w s c).1 c).2 = ClickResult.picked V ∧
    (onCellClicked luck luckVal w
      (onCellClicked luck luckVal w s c).1 c).1.playerHeldToken = some V ∧
    c ∈ (onCellClicked luck luckVal w
      (onCellClicked luck luckVal w s c).1 c).1.pickedUpCells ∧
    tokenForCell luck luckVal (onCellClicked luck luckVal w
      (onCellClicked luck luckVal w s c).1 c).1 c = none := by
  have hclick1 := click_place luck luckVal w s c V hin hheld htok
  have hin1 : cellWithinInteraction (onCellClicked luck luckVal w s c).1 c = true := by
    rw [hclick1]
    exact hin
  have hheld1 : (onCellClicked luck luckVal w s c).1.playerHeldToken = none := by
    rw [hclick1]
    rfl
  have hp1 : c ∉ (onCellClicked luck luckVal w s c).1.pickedUpCells := by
    rw [hclick1, render_mem_pickedUp]
    exact fun hh => ((mem_setDelete s.pickedUpCells c c).mp hh.1).2 rfl
  have hm1 : mapGet (onCellClicked luck luckVal w s c).1.placedTokens c = some V := by
    rw [hclick1, render_mapGet, if_pos hvis]
    exact mapGet_set_self s.placedTokens c V
  have htok1 : tokenForCell luck luckVal (onCellClicked luck luckVal w s c).1 c = some V :=
    tokenForCell_of_placed luck luckVal _ c V hp1 hm1
  have h2 := pickup_from_state luck luckVal w (onCellClicked luck luckVal w s c).1
    c V hin1 hvis hheld1 htok1
  exact ⟨by rw [hclick1], h2.1, h2.2.1, h2.2.2.1, h2.2.2.2⟩

/-- Witness for C6 at a concrete place-then-pickup of value 4. -/
theorem place_then_pickup_inverse_witness :
    cellWithinInteraction holding4 c00 = true ∧
    visibleKeys wNear c00 = true ∧
    holding4.playerHeldToken = some 4 ∧
    tokenForCell luckHalf luckHalf holding4 c00 = none ∧
    (onCellClicked luckHalf luckHalf wNear
      (onCellClicked luckHalf luckHalf wNear holding4 c00).1 c00).1.playerHeldToken =
      some 4 := by
  have hin := within_origin holding4 rfl
  have htok : tokenForCell luckHalf luckHalf holding4 c00 = none :=
    tokenForCell_luckHalf_unmodified holding4 c00 (by simp [holding4]) rfl
  exact ⟨hin, vis_wNear_c00, rfl, htok,
    (place_then_pickup_inverse luckHalf luckHalf wNear holding4 c00 4 hin
      vis_wNear_c00 rfl htok).2.2.1⟩

/-- Extracting the Emptied keys back out of their exported form. -/
theorem filterMap_emptied_keys (l : List CellID) :
    (l.map (fun c => (c, CellModification.emptied))).filterMap
      (fun cm =>
        match cm.2 with
        | CellModification.emptied => some cm.1
        | CellModification.placed _ => none) = l := by
  induction l with
  | nil => rfl
  | cons a t ih => simp [List.filterMap_cons, ih]

/-- Exported Placed entries contribute no Emptied keys. -/
theorem filterMap_emptied_of_placed (m : List (CellID × Int)) :
    (m.map (fun kv => (kv.1, CellModification.placed kv.2))).filterMap
      (fun cm =>
        match cm.2 with
        | CellModification.emptied => some cm.1
        | CellModification.placed _ => none) = [] := by
  induction m with
  | nil => rfl
  | cons a t ih => simp [List.filterMap_cons, ih]

/-- Exported Emptied entries contribute no Placed pairs. -/
theorem filterMap_placed_of_emptied (l : List CellID) :
    (l.map (fun c => (c, CellModification.emptied))).filterMap
      (fun cm =>
        match cm.2 with
        | CellModification.placed v => some (cm.1, v)
        | CellModification.emptied => none) = [] := by
  induction l with
  | nil => rfl
  | cons a t ih => simp [List.filterMap_cons, ih]

/-- Extracting the Placed pairs back out of their exported form. -/
theorem filterMap_placed_pairs (m : List (CellID × Int)) :
    (m.map (fun kv => (kv.1, CellModification.placed kv.2))).filterMap
      (fun cm =>
        match cm.2 with
        | CellModification.placed v => some (cm.1, v)
        | CellModification.emptied => none) = m := by
  induction m with
  | nil => rfl
  | cons a t ih => simp [List.filterMap_cons, ih]

/-- C5: importing an exported snapshot reproduces an observably identical
state — in fact the very same state — so every cell query, the inventory
and the player position are unchanged by the round trip. -/
theorem snapshot_roundtrip (s : GameState) :
    importSnapshot (exportSnapshot s) = s ∧
    (∀ luck luckVal : CellID → ℚ, ∀ c : CellID,
      tokenForCell luck luckVal (importSnapshot (exportSnapshot s)) c =
        tokenForCell luck luckVal s c) ∧
    (importSnapshot (exportSnapshot s)).playerHeldToken = s.playerHeldToken ∧
    (importSnapshot (exportSnapshot s)).playerLatLng = s.playerLatLng := by
  have h : importSnapshot (exportSnapshot s) = s := by
    cases s with
    | mk pu pt ht pl =>
      simp only [importSnapshot, exportSnapshot, List.filterMap_append]
      rw [filterMap_emptied_keys, filterMap_emptied_of_placed,
        filterMap_placed_of_emptied, filterMap_placed_pairs]
      simp
  exact ⟨h, fun luck luckVal c => by rw [h], by rw [h], by rw [h]⟩

end D3
